import Mathlib

/-!
Verification of the pubst publish/subscribe value broker.

The definitions below are a shallow embedding of the broker core
(pubst.js, UMD build, and its ES-class port Pubst.js).  JavaScript
values are modelled by the inductive JVal; JavaScript objects used as
string-keyed maps (the value store, the topic registry, the exact-name
subscription index) are modelled as association lists with JS object
semantics: an assignment to an existing key keeps its position, a new
key is appended, so key iteration order is insertion order.  Handler
functions are identified by a numeric id; an enqueued asynchronous
delivery is modelled by the Delivery record capturing the handler
arguments by value at enqueue time.  Thrown exceptions are modelled by
explicit result constructors that carry the broker state as it was at
the throw.
-/

namespace Pubst

/-- Model of the JavaScript primitive values the broker manipulates:
undefined, null, booleans, (integer) numbers and strings.  Strict
equality on these primitives is structural equality. -/
inductive JVal where
  | vUndef
  | vNull
  | vBool (b : Bool)
  | vNum (n : Int)
  | vStr (s : String)
deriving DecidableEq, Repr

/-- Model of a value returned by a user-supplied validator function.
nullish stands for null or undefined (falsy, and reading a property of
it throws a TypeError); falsyPrim stands for the remaining falsy
primitives (false, 0, the empty string, NaN), whose property reads
yield undefined; obj is a truthy object carrying a valid flag and a
messages array (a missing or non-array messages value behaves exactly
like the empty array everywhere it is consumed, and is modelled as []). -/
inductive VRes where
  | nullish
  | falsyPrim
  | obj (valid : Bool) (messages : List String)

/-- Source isUndefined: typeof input === undefined. -/
def isUndefined (input : JVal) : Bool :=
  input = JVal.vUndef

/-- Source isDefined: negation of isUndefined. -/
def isDefined (input : JVal) : Bool :=
  !isUndefined input

/-- Source isNotSet: item === null or isUndefined(item). -/
def isNotSet (item : JVal) : Bool :=
  item = JVal.vNull || isUndefined item

/-- Source isSet: negation of isNotSet. -/
def isSet (item : JVal) : Bool :=
  !isNotSet item

/-- Source valueOrDefault: return def when value is not set and def is
defined, otherwise return value. -/
def valueOrDefault (value defV : JVal) : JVal :=
  if isNotSet value && isDefined defV then defV else value

/-- Model of JSON.stringify(payload, null, 2) on primitive payloads.
JSON.stringify of undefined yields the JS value undefined, which the
enclosing string concatenation renders as the text undefined.  Escape
sequences inside string payloads are not modelled. -/
def jsonStringify : JVal → String
  | JVal.vUndef => "undefined"
  | JVal.vNull => "null"
  | JVal.vBool b => if b then "true" else "false"
  | JVal.vNum n => toString n
  | JVal.vStr s => "\"" ++ s ++ "\""

/-- Association-list read with JS object semantics: the value stored at
a string key, if the key is present. -/
def objGet {α : Type} (m : List (String × α)) (k : String) : Option α :=
  match m with
  | [] => none
  | (k1, v) :: rest => if k1 = k then some v else objGet rest k

/-- Association-list write with JS object semantics: an existing key
keeps its position in iteration order, a new key is appended at the
end. -/
def objSet {α : Type} (m : List (String × α)) (k : String) (v : α) : List (String × α) :=
  match m with
  | [] => [(k, v)]
  | (k1, v1) :: rest => if k1 = k then (k, v) :: rest else (k1, v1) :: objSet rest k v

/-- Source validator default (everythingIsAwesome): always returns
VALIDATION_SUCCESS, the object with valid true and empty messages. -/
def everythingIsAwesome : JVal → VRes :=
  fun _ => VRes.obj true []

/-- Resolved configuration of a topic, mirroring the fields of
DEFAULT_TOPIC_CONFIG in the source. -/
structure TopicConfig where
  name : String
  default : JVal
  eventOnly : Bool
  doPrime : Bool
  allowRepeats : Bool
  validator : JVal → VRes

/-- Source DEFAULT_TOPIC_CONFIG. -/
def DEFAULT_TOPIC_CONFIG : TopicConfig :=
  { name := ""
    default := JVal.vUndef
    eventOnly := false
    doPrime := true
    allowRepeats := false
    validator := everythingIsAwesome }

/-- A user-supplied topic configuration object: each recognized key may
be present or absent.  Keys outside DEFAULT_TOPIC_CONFIG are dropped by
buildConfig in the source and cannot influence anything, so they are
not represented. -/
structure TopicConfigInput where
  name : Option String := none
  default : Option JVal := none
  eventOnly : Option Bool := none
  doPrime : Option Bool := none
  allowRepeats : Option Bool := none
  validator : Option (JVal → VRes) := none

/-- Source buildConfig(DEFAULT_TOPIC_CONFIG, newTopicConfig): copy the
base keys, then overwrite each with the extension value when the
extension carries that key. -/
def buildTopicConfig (input : TopicConfigInput) : TopicConfig :=
  { name := input.name.getD DEFAULT_TOPIC_CONFIG.name
    default := input.default.getD DEFAULT_TOPIC_CONFIG.default
    eventOnly := input.eventOnly.getD DEFAULT_TOPIC_CONFIG.eventOnly
    doPrime := input.doPrime.getD DEFAULT_TOPIC_CONFIG.doPrime
    allowRepeats := input.allowRepeats.getD DEFAULT_TOPIC_CONFIG.allowRepeats
    validator := input.validator.getD DEFAULT_TOPIC_CONFIG.validator }

/-- A topic matcher: an exact topic-name string or a RegExp, the latter
modelled by its match predicate on topic names. -/
inductive Matcher where
  | mStr (s : String)
  | mRegex (test : String → Bool)

/-- A registered subscription.  Fields whose presence the source probes
with hasOwnProperty (doPrime, allowRepeats, eventOnly) are Options;
default is probed with a typeof-undefined test, which conflates an
absent key with an undefined value, so it is a plain JVal with vUndef
meaning unset.  The handler function is identified by a numeric id.
lastVal and lastTopic are the mutable delivery-tracking fields, both
initially unset (undefined). -/
structure Subscription where
  id : Nat
  topic : Matcher
  handler : Option Nat := none
  default : JVal := JVal.vUndef
  doPrime : Option Bool := none
  allowRepeats : Option Bool := none
  eventOnly : Option Bool := none
  lastVal : JVal := JVal.vUndef
  lastTopic : JVal := JVal.vUndef

/-- A subscription configuration object passed as the second argument
of subscribe: each recognized key may be present or absent, and
extraKeys lists the unrecognized keys present on the object. -/
structure SubConfigObj where
  handler : Option Nat := none
  default : Option JVal := none
  doPrime : Option Bool := none
  allowRepeats : Option Bool := none
  eventOnly : Option Bool := none
  extraKeys : List String := []

/-- The second argument of subscribe: a bare handler function or a
subscription configuration object. -/
inductive HandlerArg where
  | fn (handlerId : Nat)
  | cfg (c : SubConfigObj)

/-- Source ALLOWED_SUB_PROPS: the only keys subscribe copies from a
configuration object into the subscription record. -/
def ALLOWED_SUB_PROPS : List String :=
  ["topic", "handler", "default", "doPrime", "allowRepeats"]

/-- The per-key effect of the filter over Object.keys in subscribe: a
key survives exactly when it is listed in ALLOWED_SUB_PROPS. -/
def copyAllowedProp {α : Type} (key : String) (v : Option α) : Option α :=
  if key ∈ ALLOWED_SUB_PROPS then v else none

/-- The subscription record built at the top of subscribe: a bare
function becomes a record with topic, the positional default and the
handler; a configuration object has each of its keys copied when the
key is in ALLOWED_SUB_PROPS, then topic is overwritten with the first
argument. -/
def buildSubscription (topic : Matcher) (arg : HandlerArg) (defArg : JVal) (freshId : Nat) :
    Subscription :=
  match arg with
  | HandlerArg.fn h =>
      { id := freshId, topic := topic, default := defArg, handler := some h }
  | HandlerArg.cfg c =>
      { id := freshId
        topic := topic
        handler := copyAllowedProp "handler" c.handler
        default := (copyAllowedProp "default" c.default).getD JVal.vUndef
        doPrime := copyAllowedProp "doPrime" c.doPrime
        allowRepeats := copyAllowedProp "allowRepeats" c.allowRepeats
        eventOnly := copyAllowedProp "eventOnly" c.eventOnly }

/-- The module-level mutable state of the broker: the topic registry,
the value store, the exact-name subscription index and the pattern
subscription list. -/
structure BrokerState where
  topics : List (String × TopicConfig)
  store : List (String × JVal)
  stringSubs : List (String × List Subscription)
  regexSubs : List Subscription

/-- An asynchronous handler invocation enqueued by scheduleCall,
capturing the arguments the handler will receive by value at enqueue
time. -/
structure Delivery where
  subId : Nat
  value : JVal
  topic : String
deriving DecidableEq, Repr

/-- Source getTopicConfig: the registered configuration, or a synthetic
all-defaults configuration carrying the requested name (which is not
persisted into the registry). -/
def getTopicConfig (topics : List (String × TopicConfig)) (topic : String) : TopicConfig :=
  (objGet topics topic).getD { DEFAULT_TOPIC_CONFIG with name := topic }

/-- Source getStringSubsFor: the array stored for the topic, or the
empty array. -/
def getStringSubsFor (st : BrokerState) (topic : String) : List Subscription :=
  (objGet st.stringSubs topic).getD []

/-- The match test used on members of regexSubs.  That list only ever
holds pattern matchers (addSub pushes there only for RegExp topics), so
the string case cannot arise and is modelled as false. -/
def patternMatches : Matcher → String → Bool
  | Matcher.mRegex p, t => p t
  | Matcher.mStr _, _ => false

/-- Source getRegexSubsFor: the pattern subscriptions whose pattern
matches the topic name. -/
def getRegexSubsFor (st : BrokerState) (topic : String) : List Subscription :=
  st.regexSubs.filter (fun sub => patternMatches sub.topic topic)

/-- Source allSubsFor: exact-name subscriptions first, then matching
pattern subscriptions. -/
def allSubsFor (st : BrokerState) (topic : String) : List Subscription :=
  getStringSubsFor st topic ++ getRegexSubsFor st topic

/-- Warning emitted when adding an exact-name subscriber for a topic
with no registered configuration. -/
def nonConfiguredSubWarning (topic : String) : String :=
  "Adding a subscriber to non-configured topic \x27" ++ topic ++ "\x27"

/-- Warning emitted when adding a pattern subscriber matching no
configured topic name. -/
def regexNoMatchWarning : String :=
  "Adding a RegExp subscriber that matches no configured topics."

/-- Source addSub: an exact-name subscriber is appended to the array
for its topic (warning when the topic is unconfigured); a pattern
subscriber is pushed onto regexSubs (warning when it matches no
configured topic name).  The returned list holds the messages handed to
the warning sink. -/
def addSub (st : BrokerState) (subscriber : Subscription) : BrokerState × List String :=
  match subscriber.topic with
  | Matcher.mStr t =>
      let ws := if (objGet st.topics t).isNone then [nonConfiguredSubWarning t] else []
      ({ st with stringSubs := objSet st.stringSubs t (getStringSubsFor st t ++ [subscriber]) }, ws)
  | Matcher.mRegex p =>
      let matchCount := ((st.topics.map Prod.fst).filter p).length
      let ws := if matchCount = 0 then [regexNoMatchWarning] else []
      ({ st with regexSubs := st.regexSubs ++ [subscriber] }, ws)

/-- The effective default inside scheduleCall: the subscription default
unless it is undefined, else the topic default. -/
def effDefault (topicConfig : TopicConfig) (sub : Subscription) : JVal :=
  if sub.default = JVal.vUndef then topicConfig.default else sub.default

/-- The effective eventOnly flag inside scheduleCall: the subscription
value when the key is present, else the topic value. -/
def effEventOnly (topicConfig : TopicConfig) (sub : Subscription) : Bool :=
  sub.eventOnly.getD topicConfig.eventOnly

/-- The effective allowRepeats flag inside scheduleCall: the
subscription value when the key is present, else the topic value. -/
def effAllowRepeats (topicConfig : TopicConfig) (sub : Subscription) : Bool :=
  sub.allowRepeats.getD topicConfig.allowRepeats

/-- The value scheduleCall computes for the handler: the topic name
itself when effectively event-only, otherwise the payload with the
effective default substituted when the payload is not set. -/
def deliveredValue (topicConfig : TopicConfig) (sub : Subscription) (payload : JVal)
    (topic : String) : JVal :=
  if effEventOnly topicConfig sub then JVal.vStr topic
  else valueOrDefault payload (effDefault topicConfig sub)

/-- Source scheduleCall: resolve the effective flags and the value,
then enqueue the handler invocation unless the delivery is suppressed;
suppression happens exactly when none of the four disjuncts holds.  The
lastVal and lastTopic updates performed by the enqueued task when it
later runs are not part of this synchronous step. -/
def scheduleCall (topics : List (String × TopicConfig)) (sub : Subscription) (payload : JVal)
    (topic : String) : Option Delivery :=
  let topicConfig := getTopicConfig topics topic
  let value := deliveredValue topicConfig sub payload topic
  if effEventOnly topicConfig sub = true ∨ effAllowRepeats topicConfig sub = true ∨
      sub.lastVal ≠ value ∨ sub.lastTopic ≠ JVal.vStr topic
  then some { subId := sub.id, value := value, topic := topic }
  else none

/-- Source buildValidationErrorMessage: the header naming the topic, a
message block when the messages array is non-empty (joined with the
two-space indent), and the serialized payload. -/
def buildValidationErrorMessage (topicName : String) (validationMessages : List String)
    (payload : JVal) : String :=
  let messages :=
    if validationMessages.length > 0 then
      let s := if validationMessages.length = 1 then "" else "s"
      "Message" ++ s ++ ":\n  " ++ String.intercalate "\n  " validationMessages
    else ""
  let payloadString := "Received Payload:\n  " ++ jsonStringify payload
  "Validation failed for topic \x27" ++ topicName ++ "\x27.\n " ++ messages ++ "\n " ++ payloadString

/-- Truthiness test publish applies to a validation result: the result
is rejected when it is falsy or its valid field is falsy. -/
def vresInvalid : VRes → Bool
  | VRes.obj valid _ => !valid
  | _ => true

/-- The messages publish extracts from a validation result: the
messages field of a truthy result, else the empty array. -/
def vresMessages : VRes → List String
  | VRes.obj _ messages => messages
  | _ => []

/-- Warning emitted when publishing to an unconfigured topic. -/
def notConfiguredWarning (topic : String) : String :=
  "Received a publish for " ++ topic ++ " but that topic has not been configured."

/-- Warning emitted when a publish matches no subscribers. -/
def noSubscribersWarning (topic : String) : String :=
  "There are no subscribers that match \x27" ++ topic ++ "\x27!"

/-- Outcome of a publish (or of clear and clearAll, which reuse the
publish path): either a synchronously thrown error, carrying the broker
state as it was at the throw, or normal completion with the enqueued
deliveries.  The warnings list holds the messages handed to the warning
sink, in order. -/
inductive PublishResult where
  | thrown (state : BrokerState) (warnings : List String) (message : String)
  | done (state : BrokerState) (deliveries : List Delivery) (warnings : List String)

/-- The tail of publish after the validation gate: write the payload
into the value store, resolve the matching subscriptions, then either
warn that nothing matched or invoke scheduleCall once per match.  The
payload argument handed to scheduleCall is the store entry just
written, which is the published payload. -/
def publishStore (st : BrokerState) (topic : String) (payload : JVal) (ws : List String) :
    PublishResult :=
  let st2 : BrokerState := { st with store := objSet st.store topic payload }
  let subs := allSubsFor st2 topic
  if subs.length = 0 then PublishResult.done st2 [] (ws ++ [noSubscribersWarning topic])
  else PublishResult.done st2 (subs.filterMap (fun sub => scheduleCall st2.topics sub payload topic)) ws

/-- Source publish: warn when the topic is unconfigured, run the
validator unless the topic is event-only and throw a validation error
when the result is falsy or carries valid false, then store and
deliver. -/
def publish (st : BrokerState) (topic : String) (payload : JVal) : PublishResult :=
  let ws : List String := if (objGet st.topics topic).isNone then [notConfiguredWarning topic] else []
  let topicConfig := getTopicConfig st.topics topic
  if topicConfig.eventOnly = true then publishStore st topic payload ws
  else if vresInvalid (topicConfig.validator payload) = true then
    PublishResult.thrown st ws
      (buildValidationErrorMessage topic (vresMessages (topicConfig.validator payload)) payload)
  else publishStore st topic payload ws

/-- Source currentVal: the caller default when defined, else the topic
default, substituted when the stored value (undefined when the key is
absent) is not set. -/
def currentVal (st : BrokerState) (topic : String) (defV : JVal) : JVal :=
  let defToUse := if isDefined defV then defV else (getTopicConfig st.topics topic).default
  valueOrDefault ((objGet st.store topic).getD JVal.vUndef) defToUse

/-- Result of a subscribe call: the new state, the registered
subscription record, the priming deliveries enqueued, and the warnings
emitted. -/
structure SubscribeResult where
  state : BrokerState
  sub : Subscription
  deliveries : List Delivery
  warnings : List String

/-- Source subscribe: build the subscription record, register it via
addSub, compute the priming targets (a single entry for an exact
matcher, one entry per currently-stored key matching a pattern
matcher), then for each target resolve the effective doPrime and prime
through scheduleCall when doPrime holds and the topic is event-only or
the resolved value is set. -/
def subscribe (st : BrokerState) (topic : Matcher) (arg : HandlerArg) (defArg : JVal)
    (freshId : Nat) : SubscribeResult :=
  let subscription := buildSubscription topic arg defArg freshId
  let res1 := addSub st subscription
  let st1 := res1.1
  let stored : List (String × JVal) :=
    match topic with
    | Matcher.mStr t => [(t, currentVal st1 t defArg)]
    | Matcher.mRegex p =>
        ((st1.store.map Prod.fst).filter p).map (fun k => (k, currentVal st1 k defArg))
  let deliveries := stored.filterMap (fun item =>
    let topicConfig := getTopicConfig st1.topics item.1
    let doPrime := subscription.doPrime.getD topicConfig.doPrime
    if doPrime = true ∧ (topicConfig.eventOnly = true ∨ isSet item.2 = true)
    then scheduleCall st1.topics subscription item.2 item.1
    else none)
  { state := st1, sub := subscription, deliveries := deliveries, warnings := res1.2 }

/-- Source clear: republish null when the value store owns the key,
otherwise do nothing. -/
def clear (st : BrokerState) (topic : String) : PublishResult :=
  if (objGet st.store topic).isSome then publish st topic JVal.vNull
  else PublishResult.done st [] []

/-- Sequential application of clear to a list of topic names, threading
the state and accumulating deliveries and warnings; a throw aborts the
iteration, as an exception aborts forEach. -/
def clearList (st : BrokerState) (keys : List String) (accDs : List Delivery)
    (accWs : List String) : PublishResult :=
  match keys with
  | [] => PublishResult.done st accDs accWs
  | k :: ks =>
      match clear st k with
      | PublishResult.thrown st2 ws msg => PublishResult.thrown st2 (accWs ++ ws) msg
      | PublishResult.done st2 ds ws => clearList st2 ks (accDs ++ ds) (accWs ++ ws)

/-- Source clearAll: clear every key of the value store, iterating the
snapshot of Object.keys in the store iteration order. -/
def clearAll (st : BrokerState) : PublishResult :=
  clearList st (st.store.map Prod.fst) [] []

/-- Specification-side restatement of clear, written from the spec
sentence: a no-op when the value store has no entry for the topic,
otherwise exactly publish(topic, null).  Used as the comparison point
of the refinement claim about clear. -/
def clearSpec (st : BrokerState) (topic : String) : PublishResult :=
  match objGet st.store topic with
  | none => PublishResult.done st [] []
  | some _ => publish st topic JVal.vNull

/-- Outcome of an addTopic call: a synchronously thrown error, or
completion carrying the new state; either alternative carries the
warning-sink messages emitted before returning. -/
inductive AddTopicResult where
  | thrown (warnings : List String) (message : String)
  | ok (state : BrokerState) (warnings : List String)

/-- Warning emitted when addTopic overwrites an existing topic
configuration. -/
def topicOverwrittenWarning (name : String) : String :=
  "The \x27" ++ name ++ "\x27 topic has already been configured.  The previous configuration will be overwritten."

/-- Warning emitted when a configured default fails the topic validator. -/
def defaultInvalidWarning (name : String) (completeMessage : String) : String :=
  "\x27" ++ name ++ "\x27 has been configured with a default value that does not pass validation.\nComplete message:\n" ++ completeMessage

/-- Message of the TypeError raised when reading the valid property of
a nullish validation result. -/
def readValidTypeError : String :=
  "TypeError: Cannot read properties of undefined (reading \x27valid\x27)"

/-- Message of the TypeError raised by the ES-class addTopic when it
calls this.warn, which is not a method of the class (the warning method
is the private #warn). -/
def thisWarnTypeError : String :=
  "TypeError: this.warn is not a function"

/-- Source addTopic (UMD build): merge the input over the defaults,
throw when the merged name is empty, warn when the name is already
registered, validate a defined default (only warning on failure), then
register the merged configuration. -/
def addTopic (st : BrokerState) (input : TopicConfigInput) : AddTopicResult :=
  let topic := buildTopicConfig input
  if topic.name = "" then AddTopicResult.thrown [] "Topics must have a name."
  else
    let ws1 : List String :=
      if (objGet st.topics topic.name).isSome then [topicOverwrittenWarning topic.name] else []
    let registered : BrokerState := { st with topics := objSet st.topics topic.name topic }
    if isDefined topic.default = true then
      match topic.validator topic.default with
      | VRes.nullish => AddTopicResult.thrown ws1 readValidTypeError
      | VRes.falsyPrim =>
          AddTopicResult.ok registered
            (ws1 ++ [defaultInvalidWarning topic.name
              (buildValidationErrorMessage topic.name [] topic.default)])
      | VRes.obj valid ms =>
          if valid then AddTopicResult.ok registered ws1
          else
            AddTopicResult.ok registered
              (ws1 ++ [defaultInvalidWarning topic.name
                (buildValidationErrorMessage topic.name ms topic.default)])
    else AddTopicResult.ok registered ws1

/-- Source addTopic of the ES-class build (Pubst.js): the same shape,
except that both warning sites invoke this.warn, which is undefined on
the class (the method is the private #warn), so reaching either warning
throws a TypeError instead of warning. -/
def addTopicClass (st : BrokerState) (input : TopicConfigInput) : AddTopicResult :=
  let topic := buildTopicConfig input
  if topic.name = "" then AddTopicResult.thrown [] "Topics must have a name."
  else if (objGet st.topics topic.name).isSome then AddTopicResult.thrown [] thisWarnTypeError
  else
    let registered : BrokerState := { st with topics := objSet st.topics topic.name topic }
    if isDefined topic.default = true then
      match topic.validator topic.default with
      | VRes.nullish => AddTopicResult.thrown [] readValidTypeError
      | VRes.falsyPrim => AddTopicResult.thrown [] thisWarnTypeError
      | VRes.obj valid _ =>
          if valid then AddTopicResult.ok registered []
          else AddTopicResult.thrown [] thisWarnTypeError
    else AddTopicResult.ok registered []

/-- One string occurs inside another, with explicit context strings. -/
def strEmbeds (outer inner : String) : Prop :=
  ∃ a b : String, outer = a ++ inner ++ b

theorem objGet_objSet_self {α : Type} (m : List (String × α)) (k : String) (v : α) :
    objGet (objSet m k v) k = some v := by
  induction m with
  | nil => simp [objSet, objGet]
  | cons hd tl ih =>
      by_cases h : hd.1 = k
      · simp [objSet, objGet, h]
      · cases hd with
        | mk k1 v1 => simp only at h; simp [objSet, objGet, h, ih]

theorem scheduleCall_fresh (topics : List (String × TopicConfig)) (sub : Subscription)
    (payload : JVal) (topic : String) (h : sub.lastTopic = JVal.vUndef) :
    scheduleCall topics sub payload topic =
      some { subId := sub.id,
             value := deliveredValue (getTopicConfig topics topic) sub payload topic,
             topic := topic } := by
  simp only [scheduleCall]
  rw [if_pos]
  exact Or.inr (Or.inr (Or.inr (by rw [h]; exact fun hc => JVal.noConfusion hc)))

theorem buildSubscription_id (m : Matcher) (arg : HandlerArg) (defArg : JVal) (i : Nat) :
    (buildSubscription m arg defArg i).id = i := by
  cases arg <;> rfl

theorem buildSubscription_lastVal (m : Matcher) (arg : HandlerArg) (defArg : JVal) (i : Nat) :
    (buildSubscription m arg defArg i).lastVal = JVal.vUndef := by
  cases arg <;> rfl

theorem buildSubscription_lastTopic (m : Matcher) (arg : HandlerArg) (defArg : JVal) (i : Nat) :
    (buildSubscription m arg defArg i).lastTopic = JVal.vUndef := by
  cases arg <;> rfl

theorem buildSubscription_topic (m : Matcher) (arg : HandlerArg) (defArg : JVal) (i : Nat) :
    (buildSubscription m arg defArg i).topic = m := by
  cases arg <;> rfl

theorem buildSubscription_eventOnly_none (m : Matcher) (arg : HandlerArg) (defArg : JVal)
    (i : Nat) : (buildSubscription m arg defArg i).eventOnly = none := by
  cases arg with
  | fn h => rfl
  | cfg c =>
      show copyAllowedProp "eventOnly" c.eventOnly = none
      unfold copyAllowedProp
      rw [if_neg]
      decide

theorem getTopicConfig_registered_of_eventOnly (topics : List (String × TopicConfig))
    (t : String) (h : (getTopicConfig topics t).eventOnly = true) :
    (objGet topics t).isNone = false := by
  cases hg : objGet topics t with
  | none =>
      exfalso
      rw [getTopicConfig, hg] at h
      exact Bool.false_ne_true h
  | some tc => rfl

theorem publish_eventOnly (st : BrokerState) (t : String) (payload : JVal)
    (h : (getTopicConfig st.topics t).eventOnly = true) :
    publish st t payload = publishStore st t payload [] := by
  simp only [publish, getTopicConfig_registered_of_eventOnly st.topics t h, h]
  simp

/-- C2: for every (subscription, rawValue, topicName) triple handed to the
delivery scheduler, the delivery is skipped exactly when the effective
eventOnly is false, the effective allowRepeats is false, the computed
delivered value equals lastVal and the topic name equals lastTopic; and a
subscription whose tracked fields are still unset is never suppressed. -/
theorem scheduleCall_suppression_iff (topics : List (String × TopicConfig))
    (sub : Subscription) (payload : JVal) (topicName : String) :
    (scheduleCall topics sub payload topicName = none ↔
      (effEventOnly (getTopicConfig topics topicName) sub = false ∧
       effAllowRepeats (getTopicConfig topics topicName) sub = false ∧
       sub.lastVal = deliveredValue (getTopicConfig topics topicName) sub payload topicName ∧
       sub.lastTopic = JVal.vStr topicName))
    ∧ ((sub.lastVal = JVal.vUndef ∧ sub.lastTopic = JVal.vUndef) →
       scheduleCall topics sub payload topicName ≠ none) := by
  have key : scheduleCall topics sub payload topicName = none ↔
      ¬(effEventOnly (getTopicConfig topics topicName) sub = true ∨
        effAllowRepeats (getTopicConfig topics topicName) sub = true ∨
        sub.lastVal ≠ deliveredValue (getTopicConfig topics topicName) sub payload topicName ∨
        sub.lastTopic ≠ JVal.vStr topicName) := by
    simp only [scheduleCall]
    split <;> simp_all
  constructor
  · rw [key]
    push_neg
    simp only [Bool.not_eq_true]
  · rintro ⟨h1, h2⟩ hnone
    rw [key] at hnone
    push_neg at hnone
    rw [h2] at hnone
    exact JVal.noConfusion hnone.2.2.2

/-- Witness for C2 at a concrete input: a fresh subscription with unset
tracking fields is not suppressed. -/
theorem scheduleCall_suppression_iff_witness :
    scheduleCall [] { id := 1, topic := Matcher.mStr "w" } JVal.vNull "w" ≠ none :=
  (scheduleCall_suppression_iff [] { id := 1, topic := Matcher.mStr "w" } JVal.vNull "w").2
    ⟨rfl, rfl⟩

/-- C3: a delivery whose effective eventOnly is true carries the topic name
as the handler value and is never suppressed; and a publish on a topic
configured eventOnly goes straight to the store-and-deliver tail, never
consulting the validator. -/
theorem eventOnly_delivery_semantics :
    (∀ (topics : List (String × TopicConfig)) (sub : Subscription) (payload : JVal) (t : String),
      effEventOnly (getTopicConfig topics t) sub = true →
      scheduleCall topics sub payload t =
        some { subId := sub.id, value := JVal.vStr t, topic := t })
    ∧ (∀ (st : BrokerState) (t : String) (payload : JVal),
      (getTopicConfig st.topics t).eventOnly = true →
      publish st t payload = publishStore st t payload []) := by
  constructor
  · intro topics sub payload t h
    simp only [scheduleCall]
    rw [if_pos (Or.inl h)]
    simp [deliveredValue, h]
  · intro st t payload h
    exact publish_eventOnly st t payload h

/-- Witness for C3 at a concrete input: an event-only topic delivers its
name over a numeric payload, and publish on it reaches the store tail. -/
theorem eventOnly_delivery_semantics_witness :
    scheduleCall [("e", { DEFAULT_TOPIC_CONFIG with name := "e", eventOnly := true })]
        { id := 7, topic := Matcher.mStr "e" } (JVal.vNum 3) "e" =
      some { subId := 7, value := JVal.vStr "e", topic := "e" }
    ∧ publish ⟨[("e", { DEFAULT_TOPIC_CONFIG with name := "e", eventOnly := true })], [], [], []⟩
        "e" (JVal.vNum 3) =
      publishStore ⟨[("e", { DEFAULT_TOPIC_CONFIG with name := "e", eventOnly := true })], [], [], []⟩
        "e" (JVal.vNum 3) [] := by
  constructor
  · exact eventOnly_delivery_semantics.1 _ _ _ _ (by rfl)
  · exact eventOnly_delivery_semantics.2 _ _ _ (by rfl)

theorem buildVEM_embeds_topic (t : String) (msgs : List String) (payload : JVal) :
    strEmbeds (buildValidationErrorMessage t msgs payload) t :=
  ⟨"Validation failed for topic \x27",
   "\x27.\n " ++
     (if msgs.length > 0 then
        "Message" ++ (if msgs.length = 1 then "" else "s") ++ ":\n  " ++
          String.intercalate "\n  " msgs
      else "") ++ "\n " ++ ("Received Payload:\n  " ++ jsonStringify payload),
   by simp only [buildValidationErrorMessage, String.append_assoc]⟩

theorem buildVEM_embeds_payload (t : String) (msgs : List String) (payload : JVal) :
    strEmbeds (buildValidationErrorMessage t msgs payload) (jsonStringify payload) :=
  ⟨"Validation failed for topic \x27" ++ t ++ "\x27.\n " ++
     (if msgs.length > 0 then
        "Message" ++ (if msgs.length = 1 then "" else "s") ++ ":\n  " ++
          String.intercalate "\n  " msgs
      else "") ++ "\n " ++ "Received Payload:\n  ",
   "",
   by simp only [buildValidationErrorMessage, String.append_assoc, String.append_empty]⟩

theorem buildVEM_embeds_joined (t : String) (msgs : List String) (payload : JVal)
    (h : msgs ≠ []) :
    strEmbeds (buildValidationErrorMessage t msgs payload) (String.intercalate "\n  " msgs) := by
  have hlen : msgs.length > 0 := List.length_pos.mpr h
  refine ⟨"Validation failed for topic \x27" ++ t ++ "\x27.\n " ++
      ("Message" ++ (if msgs.length = 1 then "" else "s") ++ ":\n  "),
    "\n " ++ ("Received Payload:\n  " ++ jsonStringify payload), ?_⟩
  simp only [buildValidationErrorMessage]
  rw [if_pos hlen]
  simp only [String.append_assoc]

/-- C1: a publish on a non-event-only topic whose validator rejects the
payload throws synchronously, leaving the broker state exactly as it was
(thrown carries the state at the throw, so a later currentVal sees the
prior store) and enqueuing nothing, and the thrown message embeds the
topic name, the joined validation messages when there are any, and the
serialized payload. -/
theorem publish_validation_gate (st : BrokerState) (t : String) (payload : JVal)
    (h1 : (getTopicConfig st.topics t).eventOnly = false)
    (h2 : vresInvalid ((getTopicConfig st.topics t).validator payload) = true) :
    publish st t payload =
      PublishResult.thrown st
        (if (objGet st.topics t).isNone then [notConfiguredWarning t] else [])
        (buildValidationErrorMessage t
          (vresMessages ((getTopicConfig st.topics t).validator payload)) payload)
    ∧ strEmbeds (buildValidationErrorMessage t
        (vresMessages ((getTopicConfig st.topics t).validator payload)) payload) t
    ∧ (vresMessages ((getTopicConfig st.topics t).validator payload) ≠ [] →
        strEmbeds (buildValidationErrorMessage t
          (vresMessages ((getTopicConfig st.topics t).validator payload)) payload)
          (String.intercalate "\n  "
            (vresMessages ((getTopicConfig st.topics t).validator payload))))
    ∧ strEmbeds (buildValidationErrorMessage t
        (vresMessages ((getTopicConfig st.topics t).validator payload)) payload)
        (jsonStringify payload) := by
  refine ⟨?_, buildVEM_embeds_topic t _ payload,
    fun hne => buildVEM_embeds_joined t _ payload hne,
    buildVEM_embeds_payload t _ payload⟩
  simp only [publish, h1, h2]
  simp

/-- Concrete validator rejecting every payload with two messages, used by
the witness of the validation-gate claim. -/
def rejectAllValidator : JVal → VRes :=
  fun _ => VRes.obj false ["m1", "m2"]

/-- Broker state with one configured topic whose validator rejects
everything. -/
def exValidationState : BrokerState :=
  ⟨[("v", { DEFAULT_TOPIC_CONFIG with name := "v", validator := rejectAllValidator })],
   [], [], []⟩

/-- Witness for C1 at a concrete input: publishing 5 on the topic with the
rejecting validator throws, preserves the state and embeds the pieces. -/
theorem publish_validation_gate_witness :
    publish exValidationState "v" (JVal.vNum 5) =
      PublishResult.thrown exValidationState []
        (buildValidationErrorMessage "v" ["m1", "m2"] (JVal.vNum 5))
    ∧ strEmbeds (buildValidationErrorMessage "v" ["m1", "m2"] (JVal.vNum 5)) "v"
    ∧ strEmbeds (buildValidationErrorMessage "v" ["m1", "m2"] (JVal.vNum 5))
        (String.intercalate "\n  " ["m1", "m2"])
    ∧ strEmbeds (buildValidationErrorMessage "v" ["m1", "m2"] (JVal.vNum 5))
        (jsonStringify (JVal.vNum 5)) := by
  have h := publish_validation_gate exValidationState "v" (JVal.vNum 5) rfl rfl
  exact ⟨h.1, h.2.1, h.2.2.1 (by decide), h.2.2.2⟩

theorem publish_success_eq (st : BrokerState) (t : String) (payload : JVal)
    (h : (getTopicConfig st.topics t).eventOnly = true ∨
         vresInvalid ((getTopicConfig st.topics t).validator payload) = false) :
    publish st t payload = publishStore st t payload
      (if (objGet st.topics t).isNone then [notConfiguredWarning t] else []) := by
  by_cases he : (getTopicConfig st.topics t).eventOnly = true
  · simp only [publish, he]
    simp
  · have hv : vresInvalid ((getTopicConfig st.topics t).validator payload) = false := by
      rcases h with h | h
      · exact absurd h he
      · exact h
    simp only [publish, hv]
    simp [he]

theorem publishStore_eq (st : BrokerState) (t : String) (payload : JVal) (ws : List String) :
    ∃ ws2, publishStore st t payload ws =
      PublishResult.done { st with store := objSet st.store t payload }
        ((allSubsFor st t).filterMap (fun sub => scheduleCall st.topics sub payload t)) ws2 := by
  simp only [publishStore]
  split
  · next hlen =>
      have hnil : allSubsFor st t = [] := List.length_eq_zero.mp hlen
      exact ⟨ws ++ [noSubscribersWarning t], by rw [hnil]; rfl⟩
  · exact ⟨ws, rfl⟩

/-- C6: a successful publish always overwrites the store entry with the
payload — there is no short-circuit on equality with the prior value —
and hands each matching subscription to the delivery scheduler once. -/
theorem publish_always_stores (st : BrokerState) (t : String) (payload : JVal)
    (h : (getTopicConfig st.topics t).eventOnly = true ∨
         vresInvalid ((getTopicConfig st.topics t).validator payload) = false) :
    ∃ ws, publish st t payload =
        PublishResult.done { st with store := objSet st.store t payload }
          ((allSubsFor st t).filterMap (fun sub => scheduleCall st.topics sub payload t)) ws
      ∧ objGet (objSet st.store t payload) t = some payload := by
  obtain ⟨ws2, hw⟩ := publishStore_eq st t payload
    (if (objGet st.topics t).isNone then [notConfiguredWarning t] else [])
  exact ⟨ws2, (publish_success_eq st t payload h).trans hw, objGet_objSet_self _ _ _⟩

/-- Broker state whose store already holds 1 at the topic about to be
republished with the strictly equal value 1. -/
def exRepeatState : BrokerState :=
  ⟨[], [("s", JVal.vNum 1)], [], []⟩

/-- Witness for C6 at a concrete input: republishing the strictly equal
value still overwrites the entry and still runs the scheduler fan-out. -/
theorem publish_always_stores_witness :
    ∃ ws, publish exRepeatState "s" (JVal.vNum 1) =
        PublishResult.done { exRepeatState with store := objSet exRepeatState.store "s" (JVal.vNum 1) }
          ((allSubsFor exRepeatState "s").filterMap
            (fun sub => scheduleCall exRepeatState.topics sub (JVal.vNum 1) "s")) ws
      ∧ objGet (objSet exRepeatState.store "s" (JVal.vNum 1)) "s" = some (JVal.vNum 1) :=
  publish_always_stores exRepeatState "s" (JVal.vNum 1) (Or.inr rfl)

/-- C4 counterexample: a configuration object carrying eventOnly true does
not get that key copied into the subscription record, and at delivery time
on a non-event-only topic the subscriber still receives the payload, not
the topic name — the claimed per-subscription override has no effect. -/
theorem subscribe_eventOnly_not_copied_cex :
    (buildSubscription (Matcher.mStr "t")
        (HandlerArg.cfg { handler := some 0, eventOnly := some true }) JVal.vUndef 0).eventOnly =
      none
    ∧ scheduleCall [] (buildSubscription (Matcher.mStr "t")
        (HandlerArg.cfg { handler := some 0, eventOnly := some true }) JVal.vUndef 0)
        (JVal.vStr "p") "t" =
      some { subId := 0, value := JVal.vStr "p", topic := "t" } := by
  exact ⟨rfl, rfl⟩

/-- C4 amended: of the recognized keys, handler, default, doPrime and
allowRepeats present on a configuration object are copied into the
subscription record; eventOnly — absent from ALLOWED_SUB_PROPS — is
dropped exactly like unrecognized keys, so the topic configuration alone
determines the effective eventOnly of a subscription built by subscribe. -/
theorem subscribe_config_props_copied :
    (∀ (m : Matcher) (c : SubConfigObj) (defArg : JVal) (i : Nat),
      (buildSubscription m (HandlerArg.cfg c) defArg i).handler = c.handler ∧
      (buildSubscription m (HandlerArg.cfg c) defArg i).default = c.default.getD JVal.vUndef ∧
      (buildSubscription m (HandlerArg.cfg c) defArg i).doPrime = c.doPrime ∧
      (buildSubscription m (HandlerArg.cfg c) defArg i).allowRepeats = c.allowRepeats ∧
      (buildSubscription m (HandlerArg.cfg c) defArg i).eventOnly = none)
    ∧ (∀ (m : Matcher) (c : SubConfigObj) (defArg : JVal) (i : Nat) (ks : List String),
      buildSubscription m (HandlerArg.cfg { c with extraKeys := ks }) defArg i =
        buildSubscription m (HandlerArg.cfg c) defArg i)
    ∧ (∀ (topics : List (String × TopicConfig)) (t : String) (sub : Subscription),
      sub.eventOnly = none →
      effEventOnly (getTopicConfig topics t) sub = (getTopicConfig topics t).eventOnly) := by
  refine ⟨?_, ?_, ?_⟩
  · intro m c defArg i
    refine ⟨?_, ?_, ?_, ?_, ?_⟩
    · show copyAllowedProp "handler" c.handler = c.handler
      rw [copyAllowedProp, if_pos (show "handler" ∈ ALLOWED_SUB_PROPS by decide)]
    · show (copyAllowedProp "default" c.default).getD JVal.vUndef = c.default.getD JVal.vUndef
      rw [copyAllowedProp, if_pos (show "default" ∈ ALLOWED_SUB_PROPS by decide)]
    · show copyAllowedProp "doPrime" c.doPrime = c.doPrime
      rw [copyAllowedProp, if_pos (show "doPrime" ∈ ALLOWED_SUB_PROPS by decide)]
    · show copyAllowedProp "allowRepeats" c.allowRepeats = c.allowRepeats
      rw [copyAllowedProp, if_pos (show "allowRepeats" ∈ ALLOWED_SUB_PROPS by decide)]
    · exact buildSubscription_eventOnly_none m (HandlerArg.cfg c) defArg i
  · intro m c defArg i ks
    rfl
  · intro topics t sub h
    simp [effEventOnly, h]

/-- Witness for C4 at a concrete input: a subscription without the
eventOnly key takes the topic-configured value. -/
theorem subscribe_config_props_copied_witness :
    effEventOnly (getTopicConfig [] "t") { id := 3, topic := Matcher.mStr "t" } =
      (getTopicConfig [] "t").eventOnly :=
  subscribe_config_props_copied.2.2 [] "t" { id := 3, topic := Matcher.mStr "t" } rfl

/-- Broker state with a topic named A already registered, about to be
re-registered. -/
def exOverwriteState : BrokerState :=
  ⟨[("A", { DEFAULT_TOPIC_CONFIG with name := "A" })], [], [], []⟩

/-- C5 (code bug evidence): re-registering topic A diverges between the two
builds — the ES-class addTopic reaches this.warn, which is not a method of
the class (the warning method is the private #warn), and throws a
TypeError, while the UMD addTopic warns through the sink and overwrites
the registration as the spec describes. -/
theorem addTopic_overwrite_divergence :
    addTopicClass exOverwriteState { name := some "A" } =
      AddTopicResult.thrown [] thisWarnTypeError
    ∧ addTopic exOverwriteState { name := some "A" } =
      AddTopicResult.ok
        { exOverwriteState with
          topics := objSet exOverwriteState.topics "A" (buildTopicConfig { name := some "A" }) }
        [topicOverwrittenWarning "A"] := by
  exact ⟨rfl, rfl⟩

theorem addSub_mStr (st : BrokerState) (sub : Subscription) (t : String)
    (h : sub.topic = Matcher.mStr t) :
    addSub st sub =
      ({ st with stringSubs := objSet st.stringSubs t (getStringSubsFor st t ++ [sub]) },
       if (objGet st.topics t).isNone then [nonConfiguredSubWarning t] else []) := by
  simp only [addSub, h]

theorem addSub_mRegex (st : BrokerState) (sub : Subscription) (p : String → Bool)
    (h : sub.topic = Matcher.mRegex p) :
    addSub st sub =
      ({ st with regexSubs := st.regexSubs ++ [sub] },
       if ((st.topics.map Prod.fst).filter p).length = 0 then [regexNoMatchWarning] else []) := by
  simp only [addSub, h]

/-- C8: the subscriptions a publish resolves are the exact-name
subscriptions for the topic followed by the pattern subscriptions whose
pattern matches it, and registration appends at the end of the respective
collection, so both groups keep insertion order and every exact-match
subscriber precedes every pattern subscriber. -/
theorem allSubsFor_exact_then_pattern :
    (∀ (st : BrokerState) (t : String),
      allSubsFor st t = getStringSubsFor st t ++
        st.regexSubs.filter (fun sub => patternMatches sub.topic t))
    ∧ (∀ (st : BrokerState) (sub : Subscription) (t : String), sub.topic = Matcher.mStr t →
      getStringSubsFor (addSub st sub).1 t = getStringSubsFor st t ++ [sub])
    ∧ (∀ (st : BrokerState) (sub : Subscription) (p : String → Bool),
      sub.topic = Matcher.mRegex p →
      (addSub st sub).1.regexSubs = st.regexSubs ++ [sub]) := by
  refine ⟨fun st t => rfl, ?_, ?_⟩
  · intro st sub t h
    rw [addSub_mStr st sub t h]
    show (objGet (objSet st.stringSubs t (getStringSubsFor st t ++ [sub])) t).getD [] = _
    rw [objGet_objSet_self]
    rfl
  · intro st sub p h
    rw [addSub_mRegex st sub p h]

/-- Witness for C8 at a concrete input: registering an exact subscriber
appends it to the list for its topic. -/
theorem allSubsFor_exact_then_pattern_witness :
    getStringSubsFor (addSub ⟨[], [], [], []⟩ { id := 0, topic := Matcher.mStr "a" }).1 "a" =
      getStringSubsFor ⟨[], [], [], []⟩ "a" ++ [{ id := 0, topic := Matcher.mStr "a" }] :=
  allSubsFor_exact_then_pattern.2.1 ⟨[], [], [], []⟩ { id := 0, topic := Matcher.mStr "a" } "a" rfl

/-- C9: clear is a no-op exactly when the value store has no entry for the
topic and is otherwise the same call as publish(topic, null), so it agrees
with the spec-side clearSpec; clearAll applies clear to every key of the
value store in iteration order, threading the state. -/
theorem clear_refines_publish :
    (∀ (st : BrokerState) (t : String), objGet st.store t = none →
      clear st t = PublishResult.done st [] [])
    ∧ (∀ (st : BrokerState) (t : String), (objGet st.store t).isSome = true →
      clear st t = publish st t JVal.vNull)
    ∧ (∀ (st : BrokerState) (t : String), clear st t = clearSpec st t)
    ∧ (∀ (st : BrokerState), clearAll st = clearList st (st.store.map Prod.fst) [] []) := by
  refine ⟨?_, ?_, ?_, fun st => rfl⟩
  · intro st t h
    simp [clear, h]
  · intro st t h
    simp [clear, h]
  · intro st t
    cases h : objGet st.store t with
    | none => simp [clear, clearSpec, h]
    | some v => simp [clear, clearSpec, h]

/-- Witness for C9 at concrete inputs: clear without an entry is a no-op,
clear with an entry is the corresponding null publish. -/
theorem clear_refines_publish_witness :
    clear ⟨[], [], [], []⟩ "c" = PublishResult.done ⟨[], [], [], []⟩ [] []
    ∧ clear ⟨[], [("c", JVal.vNum 2)], [], []⟩ "c" =
        publish ⟨[], [("c", JVal.vNum 2)], [], []⟩ "c" JVal.vNull :=
  ⟨clear_refines_publish.1 ⟨[], [], [], []⟩ "c" rfl,
   clear_refines_publish.2.1 ⟨[], [("c", JVal.vNum 2)], [], []⟩ "c" rfl⟩

/-- Broker state with an event-only topic that also carries a configured
default value d. -/
def exEventOnlyState : BrokerState :=
  ⟨[("t", { name := "t", default := JVal.vStr "d", eventOnly := true, doPrime := true,
            allowRepeats := false, validator := everythingIsAwesome })], [], [], []⟩

/-- C10 counterexample: publishing null on an event-only topic with a
configured default stores the raw null, but a subsequent currentVal
returns the default d, not the stored payload — the claim fails for
payloads that are not set. -/
theorem eventOnly_currentVal_cex :
    publish exEventOnlyState "t" JVal.vNull =
      PublishResult.done { exEventOnlyState with store := [("t", JVal.vNull)] } []
        [noSubscribersWarning "t"]
    ∧ objGet [("t", JVal.vNull)] "t" = some JVal.vNull
    ∧ currentVal { exEventOnlyState with store := [("t", JVal.vNull)] } "t" JVal.vUndef =
        JVal.vStr "d"
    ∧ JVal.vStr "d" ≠ JVal.vNull := by
  exact ⟨rfl, rfl, rfl, by decide⟩

/-- C10 amended: a publish on an event-only topic writes the raw payload
unchanged into the value store, and a subsequent currentVal returns that
stored payload whenever the payload is set; a null or undefined payload is
instead replaced by the effective default, as everywhere else. -/
theorem eventOnly_store_currentVal (st : BrokerState) (t : String) (payload : JVal)
    (h : (getTopicConfig st.topics t).eventOnly = true) :
    ∃ ds ws, publish st t payload =
        PublishResult.done { st with store := objSet st.store t payload } ds ws
      ∧ objGet (objSet st.store t payload) t = some payload
      ∧ (isSet payload = true →
          currentVal { st with store := objSet st.store t payload } t JVal.vUndef = payload) := by
  obtain ⟨ws2, hw⟩ := publishStore_eq st t payload []
  refine ⟨_, ws2, (publish_eventOnly st t payload h).trans hw, objGet_objSet_self _ _ _, ?_⟩
  intro hset
  have hns : isNotSet payload = false := by
    simpa [isSet] using hset
  simp only [currentVal]
  rw [objGet_objSet_self]
  simp [valueOrDefault, hns]

/-- Witness for C10 at a concrete input: publishing 9 on the event-only
topic stores 9 and currentVal reads it back. -/
theorem eventOnly_store_currentVal_witness :
    ∃ ds ws, publish exEventOnlyState "t" (JVal.vNum 9) =
        PublishResult.done
          { exEventOnlyState with store := objSet exEventOnlyState.store "t" (JVal.vNum 9) } ds ws
      ∧ objGet (objSet exEventOnlyState.store "t" (JVal.vNum 9)) "t" = some (JVal.vNum 9)
      ∧ (isSet (JVal.vNum 9) = true →
          currentVal { exEventOnlyState with
            store := objSet exEventOnlyState.store "t" (JVal.vNum 9) } "t" JVal.vUndef =
            JVal.vNum 9) :=
  eventOnly_store_currentVal exEventOnlyState "t" (JVal.vNum 9) rfl

theorem filterMap_single {α β : Type} (f : α → Option β) (a : α) (b : β)
    (h : f a = some b) : List.filterMap f [a] = [b] := by
  simp [List.filterMap_cons, h]

theorem filterMap_single_none {α β : Type} (f : α → Option β) (a : α)
    (h : f a = none) : List.filterMap f [a] = [] := by
  simp [List.filterMap_cons, h]

theorem currentVal_stringSubs_update (st : BrokerState) (x : List (String × List Subscription))
    (k : String) (d : JVal) :
    currentVal { st with stringSubs := x } k d = currentVal st k d := rfl

theorem currentVal_regexSubs_update (st : BrokerState) (x : List Subscription)
    (k : String) (d : JVal) :
    currentVal { st with regexSubs := x } k d = currentVal st k d := rfl

/-- C7: a subscription whose effective doPrime is true is primed exactly
once for an exact matcher — with the resolved current value handed to the
scheduler — when the topic is event-only or that value is set, and not at
all otherwise; for a pattern matcher it is primed once per currently
stored key matching the pattern under the same per-topic rule.  A fresh
subscription is never repeat-suppressed, so each eligible target yields
exactly one enqueued delivery. -/
theorem subscribe_priming :
    (∀ (st : BrokerState) (t : String) (arg : HandlerArg) (defArg : JVal) (i : Nat),
      (buildSubscription (Matcher.mStr t) arg defArg i).doPrime.getD
          (getTopicConfig st.topics t).doPrime = true →
      (subscribe st (Matcher.mStr t) arg defArg i).deliveries =
        (if (getTopicConfig st.topics t).eventOnly = true ∨ isSet (currentVal st t defArg) = true
         then [{ subId := i,
                 value := deliveredValue (getTopicConfig st.topics t)
                   (buildSubscription (Matcher.mStr t) arg defArg i) (currentVal st t defArg) t,
                 topic := t }]
         else []))
    ∧ (∀ (st : BrokerState) (p : String → Bool) (arg : HandlerArg) (defArg : JVal) (i : Nat),
      (subscribe st (Matcher.mRegex p) arg defArg i).deliveries =
        ((st.store.map Prod.fst).filter p).filterMap (fun k =>
          if (buildSubscription (Matcher.mRegex p) arg defArg i).doPrime.getD
                (getTopicConfig st.topics k).doPrime = true ∧
             ((getTopicConfig st.topics k).eventOnly = true ∨
               isSet (currentVal st k defArg) = true)
          then some { subId := i,
                      value := deliveredValue (getTopicConfig st.topics k)
                        (buildSubscription (Matcher.mRegex p) arg defArg i)
                        (currentVal st k defArg) k,
                      topic := k }
          else none)) := by
  constructor
  · intro st t arg defArg i h
    have htop := buildSubscription_topic (Matcher.mStr t) arg defArg i
    have hlt := buildSubscription_lastTopic (Matcher.mStr t) arg defArg i
    have hid := buildSubscription_id (Matcher.mStr t) arg defArg i
    simp only [subscribe, addSub_mStr st _ t htop, currentVal_stringSubs_update]
    by_cases hc : (getTopicConfig st.topics t).eventOnly = true ∨
        isSet (currentVal st t defArg) = true
    · rw [if_pos hc]
      refine filterMap_single _ _ _ ?_
      dsimp only
      rw [if_pos ⟨h, hc⟩, scheduleCall_fresh _ _ _ _ hlt, hid]
    · rw [if_neg hc]
      refine filterMap_single_none _ _ ?_
      dsimp only
      exact if_neg (fun hh => hc hh.2)
  · intro st p arg defArg i
    have htop := buildSubscription_topic (Matcher.mRegex p) arg defArg i
    have hlt := buildSubscription_lastTopic (Matcher.mRegex p) arg defArg i
    have hid := buildSubscription_id (Matcher.mRegex p) arg defArg i
    simp only [subscribe, addSub_mRegex st _ p htop, currentVal_regexSubs_update,
      List.filterMap_map]
    refine List.filterMap_congr (fun k hk => ?_)
    dsimp only [Function.comp]
    by_cases hck : (buildSubscription (Matcher.mRegex p) arg defArg i).doPrime.getD
          (getTopicConfig st.topics k).doPrime = true ∧
        ((getTopicConfig st.topics k).eventOnly = true ∨
          isSet (currentVal st k defArg) = true)
    · rw [if_pos hck, if_pos hck, scheduleCall_fresh _ _ _ _ hlt, hid]
    · rw [if_neg hck, if_neg hck]

/-- Witness for C7 at a concrete input: subscribing with a bare handler to
a topic holding the stored value 4 primes exactly once with that value. -/
theorem subscribe_priming_witness :
    (subscribe ⟨[], [("w", JVal.vNum 4)], [], []⟩ (Matcher.mStr "w") (HandlerArg.fn 0)
        JVal.vUndef 5).deliveries =
      [{ subId := 5, value := JVal.vNum 4, topic := "w" }] := by
  have h := subscribe_priming.1 ⟨[], [("w", JVal.vNum 4)], [], []⟩ "w" (HandlerArg.fn 0)
    JVal.vUndef 5 rfl
  rw [h]
  rfl

end Pubst
